import Mathlib

/-!
Verification of the finflow persistence-and-aggregation layer
(`src/models.py`, `src/services.py`).

Shallow embedding conventions:
* Monetary amounts are `ℚ` (the spec mandates decimal-precision numbers).
* The `SavingsGoal` table is a `List Goal`; SQL `UPDATE ... WHERE id = ?`
  becomes a map over the list touching exactly the matching rows, and
  `SELECT * WHERE id = ?` becomes `List.find?`.
* Each service operation that mutates storage is a function
  `List Goal → List Goal × Except SvcError α`: the first component is the
  stored state after the call (unchanged when the operation raises before
  mutating).
* The two reads performed by the metrics engine (`SavingsGoal` fetch and
  `Transaction.find_all(limit=1000)` fetch) are modelled by a `DBState`
  holding each fetch outcome as `Except StorageError _`; a raised storage
  error is the `Except.error` case.
* Timestamps and dates are ISO-8601 strings; `datetime.now().isoformat()`
  is passed in as an explicit `now`/`cutoffDate` argument. Python's string
  comparison `>=` on dates is `String.le`.
* Python's `round(x, 1)` is round-half-to-even on tenths (`round1`).
* Row ordering (`ORDER BY ...`) is not modelled: no claim below depends on
  the order of returned rows.
-/

namespace FinFlow

/-- A row of the `SavingsGoal` table (`models.py`). -/
structure Goal where
  id : Nat
  name : String
  targetAmount : ℚ
  currentAmount : ℚ
  deadline : Option String
  userId : Option String
  createdAt : String
  updatedAt : String
deriving DecidableEq

/-- A row of the `Transaction` table (`models.py`). The source column
`type` is rendered `ttype`; `category` and `date` are read defensively in
`services.py` (`t.get(...)`), hence `Option`. -/
structure Transaction where
  id : Nat
  accountId : Option Nat
  amount : ℚ
  category : Option String
  description : String
  date : Option String
  ttype : String
deriving DecidableEq

/-- Transaction type tag for income rows. -/
def INCOME : String := "INCOME"

/-- Transaction type tag for expense rows. -/
def EXPENSE : String := "EXPENSE"

/-- The generic "Other" category label used in `get_financial_data_for_ai`
for a transaction with no category (source literal `'Khác'`, Vietnamese
for "Other"). -/
def otherCategory : String := "Khác"

/-- Default used by `t.get('date', '')` in `get_financial_data_for_ai`. -/
def emptyDate : String := ""

/-- Error taxonomy of the spec (§7). The source raises `ValueError` with
distinct messages for the two validator failures; the spec names them
ValidationError and NotFoundError. -/
inductive SvcError where
  | validationError
  | notFoundError
deriving DecidableEq

/-- An underlying storage failure (spec §7 StorageError); the payload is
an opaque code distinguishing failures. -/
structure StorageError where
  code : Nat
deriving DecidableEq

/-- Round-half-to-even to an integer, the behaviour of Python `round`. -/
def roundHalfEven (q : ℚ) : ℤ :=
  let f := ⌊q⌋
  let r := q - (f : ℚ)
  if r < 1/2 then f
  else if 1/2 < r then f + 1
  else if f % 2 = 0 then f else f + 1

/-- Python `round(x, 1)`: round half to even at one decimal place. -/
def round1 (q : ℚ) : ℚ := (roundHalfEven (10 * q) : ℚ) / 10

/-- `roundHalfEven` never goes below the floor. -/
lemma floor_le_roundHalfEven (q : ℚ) : ⌊q⌋ ≤ roundHalfEven q := by
  unfold roundHalfEven
  dsimp only
  split
  · exact le_refl _
  · split
    · exact le_of_lt (lt_add_one _)
    · split
      · exact le_refl _
      · exact le_of_lt (lt_add_one _)

/-- `roundHalfEven` never exceeds the ceiling. -/
lemma roundHalfEven_le_ceil (q : ℚ) : roundHalfEven q ≤ ⌈q⌉ := by
  have hfc : ⌊q⌋ ≤ ⌈q⌉ := Int.floor_le_ceil q
  have hkey : ∀ _h : (0 : ℚ) < q - (⌊q⌋ : ℚ), ⌊q⌋ + 1 ≤ ⌈q⌉ := by
    intro h
    have hq : (⌊q⌋ : ℚ) < q := by linarith
    have h1 : (⌊q⌋ : ℚ) < (⌈q⌉ : ℚ) := lt_of_lt_of_le hq (Int.le_ceil q)
    exact Int.add_one_le_iff.mpr (by exact_mod_cast h1)
  unfold roundHalfEven
  dsimp only
  split
  · exact hfc
  · rename_i hlt
    push_neg at hlt
    have hpos : (0 : ℚ) < q - (⌊q⌋ : ℚ) := lt_of_lt_of_le (by norm_num) hlt
    split
    · exact hkey hpos
    · split
      · exact hfc
      · exact hkey hpos

/-- `round1` maps `[0, 100]` into `[0, 100]`. -/
lemma round1_mem_Icc {x : ℚ} (h0 : 0 ≤ x) (h1 : x ≤ 100) :
    0 ≤ round1 x ∧ round1 x ≤ 100 := by
  have hlo : (0 : ℤ) ≤ ⌊(10 * x : ℚ)⌋ := Int.le_floor.mpr (by push_cast; linarith)
  have hlo2 : (0 : ℤ) ≤ roundHalfEven (10 * x) :=
    le_trans hlo (floor_le_roundHalfEven _)
  have hhi : ⌈(10 * x : ℚ)⌉ ≤ (1000 : ℤ) := Int.ceil_le.mpr (by push_cast; linarith)
  have hhi2 : roundHalfEven (10 * x) ≤ (1000 : ℤ) :=
    le_trans (roundHalfEven_le_ceil _) hhi
  constructor
  · rw [round1]
    apply div_nonneg _ (by norm_num : (0:ℚ) ≤ 10)
    exact_mod_cast hlo2
  · rw [round1, div_le_iff₀ (by norm_num : (0:ℚ) < 10)]
    have : (roundHalfEven (10 * x) : ℚ) ≤ (1000 : ℚ) := by exact_mod_cast hhi2
    linarith

/-- `round1 0 = 0`. -/
lemma round1_zero : round1 0 = 0 := by
  have h : roundHalfEven 0 = 0 := by
    unfold roundHalfEven
    norm_num
  rw [round1, mul_zero, h]
  norm_num

/-- The record returned by `SavingsService.calculate_progress`: the input
goal dict spread (`{**goal}`) plus the three derived fields. -/
structure GoalProgress where
  goal : Goal
  progress : ℚ
  remaining : ℚ
  isComplete : Bool
deriving DecidableEq

namespace SavingsService

/-- `SavingsService.calculate_progress` (`services.py` lines 59–77),
transcribed from the source. -/
def calculate_progress (g : Goal) : GoalProgress :=
  let target := g.targetAmount
  let current := g.currentAmount
  let progress := if target ≤ 0 then 0 else min 100 (current / target * 100)
  let remaining := max 0 (target - current)
  let is_complete := decide (current ≥ target)
  { goal := g
    progress := round1 progress
    remaining := remaining
    isComplete := is_complete }

end SavingsService

/-- Spec-side progress formula (spec §4.3): 0 when targetAmount ≤ 0, else
`min(100, currentAmount/targetAmount * 100)` rounded to one decimal. -/
def progressSpec (g : Goal) : ℚ :=
  if g.targetAmount ≤ 0 then 0
  else round1 (min 100 (g.currentAmount / g.targetAmount * 100))

/-- Spec-side remaining formula: `max(0, targetAmount - currentAmount)`. -/
def remainingSpec (g : Goal) : ℚ := max 0 (g.targetAmount - g.currentAmount)

/-- Spec-side completion flag: `currentAmount >= targetAmount`. -/
def isCompleteSpec (g : Goal) : Bool := decide (g.currentAmount ≥ g.targetAmount)

/-- C1: `calculate_progress` returns progress = 0 when targetAmount ≤ 0 and
otherwise `min(100, currentAmount/targetAmount * 100)` rounded to one
decimal, remaining = `max(0, targetAmount - currentAmount)`, and
isComplete = `currentAmount ≥ targetAmount`; the stored goal fields are
carried through unchanged (the function is a pure projection of its
argument and touches no stored state). -/
theorem calculate_progress_matches_spec (g : Goal) :
    SavingsService.calculate_progress g =
      { goal := g
        progress := progressSpec g
        remaining := remainingSpec g
        isComplete := isCompleteSpec g } := by
  unfold SavingsService.calculate_progress progressSpec remainingSpec isCompleteSpec
  dsimp only
  by_cases h : g.targetAmount ≤ 0
  · simp [h, round1_zero]
  · simp [h]

/-- C4: for every goal record (`currentAmount ≥ 0` per the data-model
invariant, including every goal with currentAmount > targetAmount),
`calculate_progress` returns progress in `[0, 100]` and remaining ≥ 0. -/
theorem calculate_progress_clamped (g : Goal) (hc : 0 ≤ g.currentAmount) :
    0 ≤ (SavingsService.calculate_progress g).progress ∧
      (SavingsService.calculate_progress g).progress ≤ 100 ∧
      0 ≤ (SavingsService.calculate_progress g).remaining := by
  unfold SavingsService.calculate_progress
  dsimp only
  refine ⟨?_, ?_, le_max_left 0 _⟩ <;>
  · by_cases h : g.targetAmount ≤ 0
    · simp only [h, if_true, round1_zero]
      norm_num
    · simp only [h, if_false]
      push_neg at h
      have hx0 : 0 ≤ min 100 (g.currentAmount / g.targetAmount * 100) := by
        apply le_min (by norm_num)
        have := div_nonneg hc (le_of_lt h)
        positivity
      have hx1 : min 100 (g.currentAmount / g.targetAmount * 100) ≤ 100 :=
        min_le_left _ _
      rcases round1_mem_Icc hx0 hx1 with ⟨hA, hB⟩
      first
        | exact hA
        | exact hB

/-- C4 witness: a concrete overshooting goal. -/
theorem calculate_progress_clamped_witness :
    0 ≤ (Goal.mk 1 "fund" 100 150 none none "t0" "t0").currentAmount ∧
      (0 ≤ (SavingsService.calculate_progress
              (Goal.mk 1 "fund" 100 150 none none "t0" "t0")).progress ∧
        (SavingsService.calculate_progress
            (Goal.mk 1 "fund" 100 150 none none "t0" "t0")).progress ≤ 100 ∧
        0 ≤ (SavingsService.calculate_progress
              (Goal.mk 1 "fund" 100 150 none none "t0" "t0")).remaining) :=
  ⟨by decide, calculate_progress_clamped _ (by decide)⟩

/-- Python truthiness of an optional string filter (`if user_id:` in
`models.py`): `None` and the empty string are falsy. -/
def truthy : Option String → Bool
  | some s => !s.isEmpty
  | none => false

namespace SavingsGoal

/-- `SavingsGoal.find_by_id`: `SELECT * FROM SavingsGoal WHERE id = ?`,
first matching row or absent. -/
def find_by_id (table : List Goal) (goalId : Nat) : Option Goal :=
  table.find? (fun g => g.id == goalId)

/-- `SavingsGoal.find_all`: all rows, or rows with `userId = ?` when a
truthy filter is given (ordering not modelled). -/
def find_all (table : List Goal) (userId : Option String) : List Goal :=
  if truthy userId then table.filter (fun g => g.userId == userId) else table

/-- The per-row effect of `SavingsGoal.update`'s dynamically built
`UPDATE` statement: each supplied field is rewritten, `updatedAt` always
is; an unsupplied field keeps its prior value. -/
def applyPatch (g : Goal) (name : Option String) (targetAmount currentAmount : Option ℚ)
    (deadline : Option String) (now : String) : Goal :=
  { g with
    name := name.getD g.name
    targetAmount := targetAmount.getD g.targetAmount
    currentAmount := currentAmount.getD g.currentAmount
    deadline := deadline.or g.deadline
    updatedAt := now }

/-- `SavingsGoal.update` (`models.py` lines 109–136): patch every row
matching the id, then re-read via `find_by_id`. -/
def update (table : List Goal) (goalId : Nat) (name : Option String)
    (targetAmount currentAmount : Option ℚ) (deadline : Option String) (now : String) :
    List Goal × Option Goal :=
  let table' := table.map fun g =>
    if g.id == goalId then applyPatch g name targetAmount currentAmount deadline now else g
  (table', find_by_id table' goalId)

/-- `SavingsGoal.delete`: `DELETE FROM SavingsGoal WHERE id = ?`, always
returning `True`. -/
def delete (table : List Goal) (goalId : Nat) : List Goal × Bool :=
  (table.filter (fun g => !(g.id == goalId)), true)

/-- `SavingsGoal.add_amount` (`models.py` lines 145–154): single-statement
increment `SET currentAmount = currentAmount + ?` on every row matching
the id, then re-read via `find_by_id`. -/
def add_amount (table : List Goal) (goalId : Nat) (amount : ℚ) (now : String) :
    List Goal × Option Goal :=
  let table' := table.map fun g =>
    if g.id == goalId then
      { g with currentAmount := g.currentAmount + amount, updatedAt := now }
    else g
  (table', find_by_id table' goalId)

end SavingsGoal

namespace SavingsService

/-- `SavingsService.update_goal` (`services.py` lines 32–39): existence
check, then delegate. -/
def update_goal (table : List Goal) (goalId : Nat) (name : Option String)
    (targetAmount currentAmount : Option ℚ) (deadline : Option String) (now : String) :
    List Goal × Except SvcError (Option Goal) :=
  match SavingsGoal.find_by_id table goalId with
  | none => (table, Except.error SvcError.notFoundError)
  | some _ =>
      let r := SavingsGoal.update table goalId name targetAmount currentAmount deadline now
      (r.1, Except.ok r.2)

/-- `SavingsService.delete_goal` (`services.py` lines 41–48): existence
check, then delegate. -/
def delete_goal (table : List Goal) (goalId : Nat) : List Goal × Except SvcError Bool :=
  match SavingsGoal.find_by_id table goalId with
  | none => (table, Except.error SvcError.notFoundError)
  | some _ =>
      let r := SavingsGoal.delete table goalId
      (r.1, Except.ok r.2)

/-- `SavingsService.add_amount_to_goal` (`services.py` lines 50–56):
amount validation, then delegate — no existence check. -/
def add_amount_to_goal (table : List Goal) (goalId : Nat) (amount : ℚ) (now : String) :
    List Goal × Except SvcError (Option Goal) :=
  if amount ≤ 0 then (table, Except.error SvcError.validationError)
  else
    let r := SavingsGoal.add_amount table goalId amount now
    (r.1, Except.ok r.2)

end SavingsService

/-- A fold of successful deposits: the stored state after a sequence of
`add_amount_to_goal` calls. -/
def applyDeposits (table : List Goal) (goalId : Nat) (steps : List (ℚ × String)) : List Goal :=
  steps.foldl (fun tb s => (SavingsService.add_amount_to_goal tb goalId s.1 s.2).1) table

/-- An id-preserving per-row update commutes with `find?` on the id. -/
lemma find?_map_update (table : List Goal) (goalId : Nat) (f : Goal → Goal)
    (hf : ∀ g, (f g).id = g.id) :
    ((table.map fun g => if g.id == goalId then f g else g).find? (fun g => g.id == goalId)) =
      (table.find? (fun g => g.id == goalId)).map f := by
  induction table with
  | nil => rfl
  | cons g tb ih =>
    by_cases h : g.id = goalId
    · rw [List.map_cons, if_pos (by simpa using h)]
      rw [List.find?_cons_of_pos _ (by simp [hf, h]), List.find?_cons_of_pos _ (by simp [h])]
      rfl
    · rw [List.map_cons, if_neg (by simpa using h)]
      rw [List.find?_cons_of_neg _ (by simp [h]), List.find?_cons_of_neg _ (by simp [h])]
      exact ih

/-- When no row matches the id, a per-row conditional update is the
identity on the table. -/
lemma map_update_id (table : List Goal) (goalId : Nat) (f : Goal → Goal)
    (h : table.find? (fun g => g.id == goalId) = none) :
    (table.map fun g => if g.id == goalId then f g else g) = table := by
  have hall := List.find?_eq_none.mp h
  have hcong : ∀ g ∈ table, (if g.id == goalId then f g else g) = id g := by
    intro g hg
    have hne := hall g hg
    simp only [beq_iff_eq] at hne
    simp [hne]
  rw [List.map_congr_left hcong, List.map_id]

/-- A successful deposit on an existing goal: the state update and the
returned record. -/
lemma add_amount_to_goal_found (table : List Goal) (goalId : Nat) (amount : ℚ) (now : String)
    (g : Goal) (ha : 0 < amount) (h : SavingsGoal.find_by_id table goalId = some g) :
    SavingsService.add_amount_to_goal table goalId amount now =
      ((table.map fun x =>
          if x.id == goalId then
            { x with currentAmount := x.currentAmount + amount, updatedAt := now }
          else x),
        Except.ok (some { g with currentAmount := g.currentAmount + amount, updatedAt := now })) := by
  have hfind :
      SavingsGoal.find_by_id
        (table.map fun x =>
          if x.id == goalId then
            { x with currentAmount := x.currentAmount + amount, updatedAt := now }
          else x) goalId =
        some { g with currentAmount := g.currentAmount + amount, updatedAt := now } := by
    unfold SavingsGoal.find_by_id at h ⊢
    rw [find?_map_update table goalId
      (fun x => { x with currentAmount := x.currentAmount + amount, updatedAt := now })
      (fun _ => rfl), h]
    rfl
  unfold SavingsService.add_amount_to_goal SavingsGoal.add_amount
  rw [if_neg (not_le.mpr ha)]
  dsimp only
  rw [hfind]

/-- C3: `add_amount_to_goal` rejects every amount ≤ 0 with a
ValidationError leaving stored state unchanged; for amount > 0 on an
existing goal each call increments `currentAmount` by exactly the amount
(no cap at `targetAmount`), and a sequence of successful calls increases
`currentAmount` by exactly the sum of applied amounts. -/
theorem add_amount_to_goal_spec (table : List Goal) (goalId : Nat) :
    (∀ amount : ℚ, ∀ now : String, amount ≤ 0 →
        SavingsService.add_amount_to_goal table goalId amount now =
          (table, Except.error SvcError.validationError)) ∧
    (∀ amount : ℚ, ∀ now : String, ∀ g : Goal, 0 < amount →
        SavingsGoal.find_by_id table goalId = some g →
        (SavingsService.add_amount_to_goal table goalId amount now).2 =
            Except.ok (some { g with currentAmount := g.currentAmount + amount, updatedAt := now }) ∧
          SavingsGoal.find_by_id (SavingsService.add_amount_to_goal table goalId amount now).1 goalId =
            some { g with currentAmount := g.currentAmount + amount, updatedAt := now }) ∧
    (∀ steps : List (ℚ × String), ∀ g : Goal, (∀ s ∈ steps, 0 < s.1) →
        SavingsGoal.find_by_id table goalId = some g →
        (SavingsGoal.find_by_id (applyDeposits table goalId steps) goalId).map Goal.currentAmount =
          some (g.currentAmount + (steps.map Prod.fst).sum)) := by
  refine ⟨?_, ?_, ?_⟩
  · intro amount now hle
    unfold SavingsService.add_amount_to_goal
    rw [if_pos hle]
  · intro amount now g ha h
    rw [add_amount_to_goal_found table goalId amount now g ha h]
    exact ⟨rfl, by
      unfold SavingsGoal.find_by_id at h ⊢
      rw [find?_map_update table goalId
        (fun x => { x with currentAmount := x.currentAmount + amount, updatedAt := now })
        (fun _ => rfl), h]
      rfl⟩
  · intro steps
    induction steps generalizing table with
    | nil =>
      intro g _ h
      simp [applyDeposits, h]
    | cons s rest ih =>
      intro g hpos h
      have hs : 0 < s.1 := hpos s (List.mem_cons_self s rest)
      have hstep := add_amount_to_goal_found table goalId s.1 s.2 g hs h
      have happ : applyDeposits table goalId (s :: rest) =
          applyDeposits (SavingsService.add_amount_to_goal table goalId s.1 s.2).1 goalId rest := rfl
      have hfind' :
          SavingsGoal.find_by_id (SavingsService.add_amount_to_goal table goalId s.1 s.2).1 goalId =
            some { g with currentAmount := g.currentAmount + s.1, updatedAt := s.2 } := by
        rw [hstep]
        unfold SavingsGoal.find_by_id at h ⊢
        rw [find?_map_update table goalId
          (fun x => { x with currentAmount := x.currentAmount + s.1, updatedAt := s.2 })
          (fun _ => rfl), h]
        rfl
      have hrest : ∀ x ∈ rest, 0 < x.1 := fun x hx => hpos x (List.mem_cons_of_mem s hx)
      have := ih (SavingsService.add_amount_to_goal table goalId s.1 s.2).1
        { g with currentAmount := g.currentAmount + s.1, updatedAt := s.2 } hrest hfind'
      rw [happ, this]
      simp [add_assoc]

/-- A one-row sample table used by closed witness statements. -/
def sampleGoal : Goal := Goal.mk 1 "fund" 100 0 none none "t0" "t0"

/-- The sample table holding only `sampleGoal`. -/
def sampleTable : List Goal := [sampleGoal]

/-- C3 witness: rejection at -3, single deposit of 5, and deposits of 5
then 7 summing to 12, all on the concrete one-goal table. -/
theorem add_amount_to_goal_spec_witness :
    SavingsService.add_amount_to_goal sampleTable 1 (-3) "t1" =
        (sampleTable, Except.error SvcError.validationError) ∧
      (SavingsService.add_amount_to_goal sampleTable 1 5 "t1").2 =
        Except.ok (some (Goal.mk 1 "fund" 100 5 none none "t0" "t1")) ∧
      (SavingsGoal.find_by_id (applyDeposits sampleTable 1 [(5, "t1"), (7, "t2")]) 1).map
          Goal.currentAmount = some 12 := by
  refine ⟨?_, ?_, ?_⟩
  · exact (add_amount_to_goal_spec sampleTable 1).1 (-3) "t1" (by norm_num)
  · have h := ((add_amount_to_goal_spec sampleTable 1).2.1 5 "t1" sampleGoal (by norm_num) rfl).1
    rw [h]
    simp [sampleGoal]
  · have h := (add_amount_to_goal_spec sampleTable 1).2.2 [(5, "t1"), (7, "t2")] sampleGoal
      (by intro s hs; fin_cases hs <;> norm_num) rfl
    rw [h]
    norm_num [sampleGoal]

/-- C7: updating a goal with only `current_amount` supplied rewrites only
`currentAmount` and `updatedAt`; name, targetAmount and deadline are
unchanged, and `updatedAt` is advanced to the new instant. -/
theorem update_goal_current_only (table : List Goal) (goalId : Nat) (c : ℚ) (now : String)
    (g : Goal) (h : SavingsGoal.find_by_id table goalId = some g) (hnow : now ≠ g.updatedAt) :
    ∃ g', (SavingsService.update_goal table goalId none none (some c) none now).2 =
        Except.ok (some g') ∧
      g'.name = g.name ∧ g'.targetAmount = g.targetAmount ∧ g'.deadline = g.deadline ∧
      g'.currentAmount = c ∧ g'.updatedAt = now ∧ g'.updatedAt ≠ g.updatedAt := by
  refine ⟨SavingsGoal.applyPatch g none none (some c) none now, ?_, rfl, rfl, rfl, rfl, rfl, hnow⟩
  unfold SavingsService.update_goal
  rw [h]
  dsimp only
  unfold SavingsGoal.update
  dsimp only
  unfold SavingsGoal.find_by_id at h ⊢
  rw [find?_map_update table goalId
    (fun x => SavingsGoal.applyPatch x none none (some c) none now) (fun _ => rfl), h]
  rfl

/-- C7 witness: the sample goal patched to currentAmount 42 at a later
instant. -/
theorem update_goal_current_only_witness :
    ∃ g', (SavingsService.update_goal sampleTable 1 none none (some 42) none "t1").2 =
        Except.ok (some g') ∧
      g'.name = sampleGoal.name ∧ g'.targetAmount = sampleGoal.targetAmount ∧
      g'.deadline = sampleGoal.deadline ∧ g'.currentAmount = 42 ∧ g'.updatedAt = "t1" ∧
      g'.updatedAt ≠ sampleGoal.updatedAt :=
  update_goal_current_only sampleTable 1 42 "t1" sampleGoal rfl (by decide)

/-- C8: deleting a goal that does not exist fails with NotFoundError and
leaves storage untouched. -/
theorem delete_goal_not_found (table : List Goal) (goalId : Nat)
    (h : SavingsGoal.find_by_id table goalId = none) :
    SavingsService.delete_goal table goalId = (table, Except.error SvcError.notFoundError) := by
  unfold SavingsService.delete_goal
  rw [h]

/-- C8 witness: deleting id 9, absent from the sample table. -/
theorem delete_goal_not_found_witness :
    SavingsService.delete_goal sampleTable 9 =
      (sampleTable, Except.error SvcError.notFoundError) :=
  delete_goal_not_found sampleTable 9 rfl

/-- C10: for a positive amount and an id absent from storage,
`add_amount_to_goal` raises no error: the update matches zero rows, the
state is unchanged and the call returns `none` — unlike `update_goal` and
`delete_goal`, which fail with NotFoundError on the same id. -/
theorem add_amount_missing_goal_no_error (table : List Goal) (goalId : Nat) (amount : ℚ)
    (now : String) (ha : 0 < amount) (h : SavingsGoal.find_by_id table goalId = none) :
    SavingsService.add_amount_to_goal table goalId amount now = (table, Except.ok none) ∧
      SavingsService.update_goal table goalId none none none none now =
        (table, Except.error SvcError.notFoundError) ∧
      SavingsService.delete_goal table goalId = (table, Except.error SvcError.notFoundError) := by
  refine ⟨?_, ?_, ?_⟩
  · unfold SavingsService.add_amount_to_goal SavingsGoal.add_amount
    rw [if_neg (not_le.mpr ha)]
    dsimp only
    unfold SavingsGoal.find_by_id at h ⊢
    rw [map_update_id table goalId _ h, h]
  · unfold SavingsService.update_goal
    rw [h]
  · unfold SavingsService.delete_goal
    rw [h]

/-- C10 witness: depositing 5 into absent id 9 on the sample table. -/
theorem add_amount_missing_goal_no_error_witness :
    SavingsService.add_amount_to_goal sampleTable 9 5 "t1" = (sampleTable, Except.ok none) ∧
      SavingsService.update_goal sampleTable 9 none none none none "t1" =
        (sampleTable, Except.error SvcError.notFoundError) ∧
      SavingsService.delete_goal sampleTable 9 =
        (sampleTable, Except.error SvcError.notFoundError) :=
  add_amount_missing_goal_no_error sampleTable 9 5 "t1" (by norm_num) rfl

/-- Outcome of the two table reads the metrics engine performs: the
`SavingsGoal` fetch and the `Transaction.find_all(limit=1000)` fetch.
`Except.error` is a raised StorageError in the corresponding read. -/
structure DBState where
  goalsFetch : Except StorageError (List Goal)
  txFetch : Except StorageError (List Transaction)

/-- `SavingsGoal.find_all` against the fallible storage gateway: a raised
StorageError propagates to the caller. -/
def goalsFindAll (st : DBState) (userId : Option String) : Except StorageError (List Goal) :=
  st.goalsFetch.map (fun table => SavingsGoal.find_all table userId)

/-- The record returned by `SavingsService.get_summary`. -/
structure Summary where
  totalGoals : Nat
  completedGoals : Nat
  totalTarget : ℚ
  totalCurrent : ℚ
  overallProgress : ℚ
  goals : List GoalProgress
deriving DecidableEq

/-- The `FinancialReport` payload returned by
`SavingsService.get_financial_data_for_ai`, aliases included. -/
structure FinReport where
  total_income : ℚ
  total_expense : ℚ
  monthly_avg_income : ℚ
  monthly_avg_expense : ℚ
  current_savings : ℚ
  savings_goals : List Goal
  expense_by_category : List (String × ℚ)
  period_months : Int
  monthly_income : ℚ
  monthly_expense : ℚ
  other_goals : List Goal
deriving DecidableEq

/-- `t.get('category', 'Khác')`: a transaction's category, defaulting to
the generic "Other" label when missing. -/
def effectiveCategory (t : Transaction) : String := t.category.getD otherCategory

/-- One iteration of the category loop in `get_financial_data_for_ai`
(`services.py` lines 126–129): dict assignment
`expense_by_category[cat] = expense_by_category.get(cat, 0) + t['amount']`
updates the existing key in place or appends a new one. -/
def addToCategory : List (String × ℚ) → String → ℚ → List (String × ℚ)
  | [], c, a => [(c, a)]
  | kv :: rest, c, a =>
      if kv.1 == c then (kv.1, kv.2 + a) :: rest else kv :: addToCategory rest c a

/-- The loop body over one transaction: only EXPENSE rows touch the
mapping. -/
def categoryStep (m : List (String × ℚ)) (t : Transaction) : List (String × ℚ) :=
  if t.ttype == EXPENSE then addToCategory m (effectiveCategory t) t.amount else m

/-- Dict lookup on the category mapping. -/
def lookupCategory (m : List (String × ℚ)) (c : String) : Option ℚ :=
  (m.find? (fun kv => kv.1 == c)).map Prod.snd

namespace SavingsService

/-- `SavingsService.get_summary` (`services.py` lines 80–101). -/
def get_summary (st : DBState) (userId : Option String) : Except StorageError Summary :=
  (goalsFindAll st userId).map fun goals =>
    let total_target := (goals.map Goal.targetAmount).sum
    let total_current := (goals.map Goal.currentAmount).sum
    let overall_progress := if 0 < total_target then total_current / total_target * 100 else 0
    let completed_count := goals.countP fun g => decide (g.currentAmount ≥ g.targetAmount)
    { totalGoals := goals.length
      completedGoals := completed_count
      totalTarget := total_target
      totalCurrent := total_current
      overallProgress := round1 overall_progress
      goals := goals.map calculate_progress }

/-- `SavingsService.get_financial_data_for_ai` (`services.py` lines
104–156). The cutoff instant `(now - months*30 days).isoformat()` is
passed as the explicit `cutoffDate` argument; the `try` around
transaction retrieval is the `match` on the fetch outcome: a storage
failure there is absorbed into zero totals and an empty mapping, while a
failure of the goals fetch (outside the `try`) propagates. -/
def get_financial_data_for_ai (st : DBState) (userId : Option String)
    (cutoffDate : String) (months : Int) : Except StorageError FinReport :=
  (goalsFindAll st userId).map fun goals =>
    let txData :=
      match st.txFetch with
      | Except.ok transactions =>
          let recent_trans :=
            transactions.filter fun (t : Transaction) => cutoffDate ≤ t.date.getD emptyDate
          let total_income :=
            ((recent_trans.filter fun (t : Transaction) => t.ttype == INCOME).map
              Transaction.amount).sum
          let total_expense :=
            ((recent_trans.filter fun (t : Transaction) => t.ttype == EXPENSE).map
              Transaction.amount).sum
          let expense_by_category := recent_trans.foldl categoryStep []
          (total_income, total_expense, expense_by_category)
      | Except.error _ => ((0 : ℚ), (0 : ℚ), ([] : List (String × ℚ)))
    let current_savings := (goals.map Goal.currentAmount).sum
    let monthly_avg_expense := if 0 < months then txData.2.1 / (months : ℚ) else 0
    let monthly_avg_income := if 0 < months then txData.1 / (months : ℚ) else 0
    { total_income := txData.1
      total_expense := txData.2.1
      monthly_avg_income := monthly_avg_income
      monthly_avg_expense := monthly_avg_expense
      current_savings := current_savings
      savings_goals := goals
      expense_by_category := txData.2.2
      period_months := months
      monthly_income := monthly_avg_income
      monthly_expense := monthly_avg_expense
      other_goals := goals }

end SavingsService

/-- C5: `get_summary` on an empty goal set returns all-zero aggregates and
an empty goals sequence, for any owner filter; the guarded branch makes
the division unreachable, so no failure is raised (the function is total
and returns `Except.ok`). -/
theorem get_summary_empty (userId : Option String)
    (tx : Except StorageError (List Transaction)) :
    SavingsService.get_summary (DBState.mk (Except.ok []) tx) userId =
      Except.ok (Summary.mk 0 0 0 0 0 []) := by
  unfold SavingsService.get_summary goalsFindAll SavingsGoal.find_all
  cases h : truthy userId <;> simp [h, Except.map, round1_zero]

/-- C2: a failing transaction fetch inside `get_financial_data_for_ai` is
never propagated: the report comes back `ok` with zero totals and an
empty category mapping while the goals-derived fields are still computed;
by contrast a goals-fetch failure propagates from both `get_summary` and
`get_financial_data_for_ai`, making the transaction fetch the one
absorbed storage failure. -/
theorem ai_report_absorbs_tx_failure (gs : List Goal) (e : StorageError)
    (uid : Option String) (cutoffDate : String) (months : Int)
    (e' : StorageError) (tx : Except StorageError (List Transaction)) :
    SavingsService.get_financial_data_for_ai
        (DBState.mk (Except.ok gs) (Except.error e)) uid cutoffDate months =
      Except.ok
        { total_income := 0
          total_expense := 0
          monthly_avg_income := 0
          monthly_avg_expense := 0
          current_savings := ((SavingsGoal.find_all gs uid).map Goal.currentAmount).sum
          savings_goals := SavingsGoal.find_all gs uid
          expense_by_category := []
          period_months := months
          monthly_income := 0
          monthly_expense := 0
          other_goals := SavingsGoal.find_all gs uid } ∧
      SavingsService.get_summary (DBState.mk (Except.error e') tx) uid = Except.error e' ∧
      SavingsService.get_financial_data_for_ai (DBState.mk (Except.error e') tx) uid
          cutoffDate months = Except.error e' := by
  refine ⟨?_, rfl, rfl⟩
  unfold SavingsService.get_financial_data_for_ai goalsFindAll
  simp [Except.map]

/-- Whether a transaction is an EXPENSE row counted under category `c`. -/
def isExpenseIn (c : String) (t : Transaction) : Bool :=
  t.ttype == EXPENSE && effectiveCategory t == c

/-- Spec-side: the summed amount of the EXPENSE transactions in `ts`
whose effective category is `c`. -/
def expenseSumFor (ts : List Transaction) (c : String) : ℚ :=
  ((ts.filter (isExpenseIn c)).map Transaction.amount).sum

/-- Looking up the key just added: the prior value (default 0) plus the
added amount. -/
lemma lookupCategory_addToCategory_self (m : List (String × ℚ)) (c : String) (a : ℚ) :
    lookupCategory (addToCategory m c a) c = some ((lookupCategory m c).getD 0 + a) := by
  induction m with
  | nil => simp [addToCategory, lookupCategory]
  | cons kv m ih =>
    by_cases h : kv.1 = c
    · unfold addToCategory lookupCategory
      rw [if_pos (by simpa using h)]
      rw [List.find?_cons_of_pos _ (by simpa using h), List.find?_cons_of_pos _ (by simpa using h)]
      simp
    · unfold addToCategory
      rw [if_neg (by simpa using h)]
      unfold lookupCategory at ih ⊢
      rw [List.find?_cons_of_neg _ (by simpa using h), List.find?_cons_of_neg _ (by simpa using h)]
      exact ih

/-- Adding under one key leaves every other key's lookup unchanged. -/
lemma lookupCategory_addToCategory_other (m : List (String × ℚ)) (c c' : String) (a : ℚ)
    (h : c' ≠ c) : lookupCategory (addToCategory m c a) c' = lookupCategory m c' := by
  induction m with
  | nil =>
    unfold addToCategory lookupCategory
    rw [List.find?_cons_of_neg _ (by simpa using fun hc => h hc.symm)]
  | cons kv m ih =>
    by_cases hk : kv.1 = c
    · unfold addToCategory lookupCategory
      rw [if_pos (by simpa using hk)]
      by_cases hk' : kv.1 = c'
      · exact absurd (hk' ▸ hk) h
      · rw [List.find?_cons_of_neg _ (by simpa using hk'),
          List.find?_cons_of_neg _ (by simpa using hk')]
    · unfold addToCategory
      rw [if_neg (by simpa using hk)]
      by_cases hk' : kv.1 = c'
      · unfold lookupCategory
        rw [List.find?_cons_of_pos _ (by simpa using hk'),
          List.find?_cons_of_pos _ (by simpa using hk')]
      · unfold lookupCategory at ih ⊢
        rw [List.find?_cons_of_neg _ (by simpa using hk'),
          List.find?_cons_of_neg _ (by simpa using hk')]
        exact ih

/-- Invariant of the category loop: starting from any accumulator, the
final lookup of `c` combines the accumulator's entry with the summed
EXPENSE amounts under `c`. -/
lemma lookupCategory_foldl (ts : List Transaction) (m : List (String × ℚ)) (c : String) :
    lookupCategory (ts.foldl categoryStep m) c =
      if ts.any (isExpenseIn c) || (lookupCategory m c).isSome then
        some ((lookupCategory m c).getD 0 + expenseSumFor ts c)
      else none := by
  induction ts generalizing m with
  | nil =>
    by_cases h : (lookupCategory m c).isSome
    · obtain ⟨v, hv⟩ := Option.isSome_iff_exists.mp h
      simp [expenseSumFor, hv]
    · rw [Option.not_isSome_iff_eq_none] at h
      simp [expenseSumFor, h]
  | cons t ts ih =>
    rw [List.foldl_cons]
    by_cases hexp : t.ttype == EXPENSE
    · by_cases hcat : effectiveCategory t = c
      · have hstep : categoryStep m t = addToCategory m c t.amount := by
          simp [categoryStep, hexp, hcat]
        have hin : isExpenseIn c t = true := by simp [isExpenseIn, hexp, hcat]
        rw [hstep, ih, lookupCategory_addToCategory_self]
        simp [hin, expenseSumFor, List.filter_cons, add_assoc]
      · have hstep : categoryStep m t = addToCategory m (effectiveCategory t) t.amount := by
          simp [categoryStep, hexp]
        have hin : isExpenseIn c t = false := by simp [isExpenseIn, hexp, hcat]
        rw [hstep, ih,
          lookupCategory_addToCategory_other m (effectiveCategory t) c t.amount
            (fun hc => hcat hc.symm)]
        simp [hin, expenseSumFor, List.filter_cons]
    · have hstep : categoryStep m t = m := by simp [categoryStep, hexp]
      have hin : isExpenseIn c t = false := by simp [isExpenseIn, hexp]
      rw [hstep, ih]
      simp [hin, expenseSumFor, List.filter_cons]

/-- C6: in the report produced by `get_financial_data_for_ai`, the
category mapping is built only from EXPENSE transactions inside the date
window; a key is present exactly when such a transaction exists for it,
and it maps to the sum of those transactions' amounts (a transaction with
no category is counted under the generic "Other" label
`effectiveCategory`). -/
theorem expense_by_category_spec (gs : List Goal) (ts : List Transaction)
    (uid : Option String) (cutoffDate : String) (months : Int) (c : String) :
    (SavingsService.get_financial_data_for_ai (DBState.mk (Except.ok gs) (Except.ok ts)) uid
          cutoffDate months).map (fun r => lookupCategory r.expense_by_category c) =
      Except.ok
        (if (ts.filter fun (t : Transaction) => cutoffDate ≤ t.date.getD emptyDate).any
              (isExpenseIn c) then
          some (expenseSumFor
            (ts.filter fun (t : Transaction) => cutoffDate ≤ t.date.getD emptyDate) c)
        else none) := by
  unfold SavingsService.get_financial_data_for_ai goalsFindAll
  simp only [Except.map]
  rw [lookupCategory_foldl]
  simp [lookupCategory]

/-- Projection of a financial report to its transaction-derived fields. -/
def txDerivedFields (r : FinReport) : ℚ × ℚ × ℚ × ℚ × List (String × ℚ) :=
  (r.total_income, r.total_expense, r.monthly_avg_income, r.monthly_avg_expense,
    r.expense_by_category)

/-- C9: for a fixed stored state, cutoff and months, the owner filter has
no influence on total_income, total_expense, monthly_avg_income,
monthly_avg_expense or expense_by_category — the transaction retrieval
passes no owner filter, so any two filter values (including absent) yield
the same transaction-derived report fields. -/
theorem ai_report_owner_filter_independent (st : DBState) (u1 u2 : Option String)
    (cutoffDate : String) (months : Int) :
    (SavingsService.get_financial_data_for_ai st u1 cutoffDate months).map txDerivedFields =
      (SavingsService.get_financial_data_for_ai st u2 cutoffDate months).map txDerivedFields := by
  obtain ⟨gf, tf⟩ := st
  cases gf <;> cases tf <;> rfl

end FinFlow
